import Mathlib

/-!
Verification of the blog content-repository handlers (`src/server/src/handlers/*.ts`
and `src/server/src/db/schema.ts`) against their natural-language specification.

Modelling conventions (shallow embedding of the TypeScript source):
* Timestamps are `Int` ticks; `new Date()` / `defaultNow()` become an explicit
  `now : Int` argument to every handler that stamps a timestamp.
* Each Postgres table (`schema.ts`) becomes a `List` of row structures inside
  `DBState`.  Serial primary-key assignment for `blog_posts` is modelled with a
  `nextPostId` counter.  The serial `id` column of the `blog_post_tags` junction
  table is never read by any handler, so an association row is modelled as its
  `(blog_post_id, tag_id)` payload; list multiplicity = row multiplicity.
* Handlers are functions `… → DBState → Except HandlerError α × DBState`; the
  returned state reflects exactly the mutating store calls executed before a
  `throw`, mirroring the absence of transactions in the handlers.
* The zod input schema file (`src/server/src/schema.ts`) is not present under
  `src/`; input shapes are modelled from the spec (§3, §4.4, §6): optional
  fields are `Option`, three-state update fields are `Option (Option _)`
  (absent / present-null / present-value), integer ids are unconstrained `Int`.
* `drizzle`'s `eq`/`inArray` where-clauses become decidable filters; SQL
  `ORDER BY created_at DESC` is modelled as a stable sort (`insertionSort`)
  by the `postNewerFirst` relation, `LIMIT n OFFSET k` as `drop k` then
  `take n`.  Store-enforced slug uniqueness (`DuplicateSlug`) is not modelled:
  no claim under scrutiny mentions it.
-/

namespace Blog

/-- Row of `categoriesTable` (`schema.ts`). -/
structure Category where
  id : Int
  name : String
  slug : String
  description : Option String
  created_at : Int
  updated_at : Int
deriving Repr, DecidableEq

/-- Row of `tagsTable` (`schema.ts`). -/
structure Tag where
  id : Int
  name : String
  slug : String
  created_at : Int
deriving Repr, DecidableEq

/-- Row of `blogPostsTable` (`schema.ts`). -/
structure BlogPost where
  id : Int
  title : String
  content : String
  slug : String
  excerpt : Option String
  published : Bool
  publication_date : Option Int
  category_id : Option Int
  author : String
  created_at : Int
  updated_at : Int
deriving Repr, DecidableEq

/-- Row of `blogPostTagsTable` (`schema.ts`), minus its serial `id`, which no
handler ever reads. -/
structure BlogPostTag where
  blog_post_id : Int
  tag_id : Int
deriving Repr, DecidableEq

/-- The persistent store: the four tables plus the serial counter for
`blog_posts.id`. -/
structure DBState where
  categories : List Category
  tags : List Tag
  blog_posts : List BlogPost
  blog_post_tags : List BlogPostTag
  nextPostId : Int
deriving Repr, DecidableEq

/-- Error taxonomy of spec §7 for the errors the handlers throw
(`throw new Error(...)` with the corresponding message). -/
inductive HandlerError where
  | DanglingCategoryReference (id : Int)
  | DanglingTagReference (ids : List Int)
  | NotFound (id : Int)
deriving Repr, DecidableEq

/-- `CreateBlogPostInput` (zod schema absent from `src/`; shape modelled from
the spec §3/§4.4: nullable scalar fields are `Option`, `published` defaults to
`false` when unspecified, `tag_ids` may be omitted). -/
structure CreateBlogPostInput where
  title : String
  content : String
  slug : String
  excerpt : Option String
  published : Option Bool
  publication_date : Option Int
  category_id : Option Int
  author : String
  tag_ids : Option (List Int)
deriving Repr, DecidableEq

/-- `UpdateBlogPostInput` (modelled from the spec §4.4 three-state semantics:
outer `Option` = field present in the input or not, inner `Option` = null or a
value for the nullable fields). -/
structure UpdateBlogPostInput where
  id : Int
  title : Option String
  content : Option String
  slug : Option String
  excerpt : Option (Option String)
  published : Option Bool
  publication_date : Option (Option Int)
  category_id : Option (Option Int)
  author : Option String
  tag_ids : Option (List Int)
deriving Repr, DecidableEq

/-- `GetBlogPostInput`: an id, a slug, or both (spec §4.4). -/
structure GetBlogPostInput where
  id : Option Int
  slug : Option String
deriving Repr, DecidableEq

/-- `GetBlogPostsInput`: the listing filter of spec §4.5. -/
structure GetBlogPostsInput where
  published : Option Bool
  category_id : Option Int
  tag_id : Option Int
  limit : Option Nat
  offset : Option Nat
deriving Repr, DecidableEq

/-- `DeleteItemInput`. -/
structure DeleteItemInput where
  id : Int
deriving Repr, DecidableEq

/-- JavaScript truthiness of `input.category_id` as tested by
`if (input.category_id)` in `create_blog_post.ts` line 9: `undefined`, `null`
and `0` are all falsy. -/
def jsTruthy : Option Int → Bool
  | some c => c != 0
  | none => false

/-- The row insertion part of `createBlogPost` (`create_blog_post.ts` lines
35-64): insert the post row (serial id, `defaultNow()` timestamps, `published`
column default `false`), then bulk-insert one association row per element of
`l` when `l` is non-empty.  `l` is the supplied `tag_ids` list, `[]` when the
field was absent or empty (the code guards the association insert with
`input.tag_ids && input.tag_ids.length > 0`). -/
def createInsert (now : Int) (input : CreateBlogPostInput) (s : DBState) (l : List Int) :
    Except HandlerError BlogPost × DBState :=
  let post : BlogPost :=
    { id := s.nextPostId
      title := input.title
      content := input.content
      slug := input.slug
      excerpt := input.excerpt
      published := input.published.getD false
      publication_date := input.publication_date
      category_id := input.category_id
      author := input.author
      created_at := now
      updated_at := now }
  let s1 : DBState := { s with blog_posts := s.blog_posts ++ [post], nextPostId := s.nextPostId + 1 }
  let s2 : DBState :=
    if l.length > 0 then
      { s1 with blog_post_tags := s1.blog_post_tags ++ (l.map fun tid => ⟨post.id, tid⟩) }
    else s1
  (.ok post, s2)

/-- `createBlogPost` (`create_blog_post.ts`): category existence check when
`input.category_id` is truthy (`select … where eq(id, …) limit 1`), tag batch
check when `tag_ids` is present and non-empty (`inArray` = list membership;
the code compares `existingTags.length` with `input.tag_ids.length` and names
`input.tag_ids.filter(id => !existingTagIds.includes(id))` in the error), then
the inserts. -/
def createBlogPost (now : Int) (input : CreateBlogPostInput) (s : DBState) :
    Except HandlerError BlogPost × DBState :=
  if jsTruthy input.category_id &&
      (((s.categories.filter fun c => decide (c.id = input.category_id.getD 0)).take 1).length
        == 0) then
    (.error (.DanglingCategoryReference (input.category_id.getD 0)), s)
  else
    match input.tag_ids with
    | some l =>
      if l.length > 0 then
        let existingTags : List Tag := s.tags.filter fun t => decide (t.id ∈ l)
        if existingTags.length ≠ l.length then
          let existingTagIds : List Int := existingTags.map fun t => t.id
          let missingTagIds : List Int := l.filter fun i => !(decide (i ∈ existingTagIds))
          (.error (.DanglingTagReference missingTagIds), s)
        else createInsert now input s l
      else createInsert now input s []
    | none => createInsert now input s []

/-- The `updateData` application of `update_blog_post.ts` lines 19-53: a
column is overwritten exactly when the corresponding input field is present
(`!== undefined`); `updated_at` is always overwritten with `new Date()`. -/
def applyUpdate (now : Int) (input : UpdateBlogPostInput) (p : BlogPost) : BlogPost :=
  { p with
    title := input.title.getD p.title
    content := input.content.getD p.content
    slug := input.slug.getD p.slug
    excerpt := input.excerpt.getD p.excerpt
    published := input.published.getD p.published
    publication_date := input.publication_date.getD p.publication_date
    category_id := input.category_id.getD p.category_id
    author := input.author.getD p.author
    updated_at := now }

/-- `updateBlogPost` (`update_blog_post.ts`): select the post by id (`NotFound`
when absent), update the row, then — only when `tag_ids` is present — delete all
association rows of the post and insert one row per supplied id (guarded by
`tag_ids.length > 0`).  Note: the handler performs no tag or category existence
validation.  `result[0]` of `.returning()` is the first updated row, i.e. the
updated image of the first stored row with the target id. -/
def updateBlogPost (now : Int) (input : UpdateBlogPostInput) (s : DBState) :
    Except HandlerError BlogPost × DBState :=
  match s.blog_posts.filter fun p => decide (p.id = input.id) with
  | [] => (.error (.NotFound input.id), s)
  | p :: _ =>
    let s1 : DBState := { s with blog_posts := (s.blog_posts.map fun r =>
      if r.id = input.id then applyUpdate now input r else r) }
    let s2 : DBState := match input.tag_ids with
      | none => s1
      | some l =>
        let s1' : DBState := { s1 with blog_post_tags :=
          (s1.blog_post_tags.filter fun a => decide (a.blog_post_id ≠ input.id)) }
        if l.length > 0 then
          { s1' with blog_post_tags :=
            s1'.blog_post_tags ++ (l.map fun tid => ⟨input.id, tid⟩) }
        else s1'
    (.ok (applyUpdate now input p), s2)

/-- The search condition of `get_blog_post.ts` lines 41-53: `id` and `slug`
conditions are combined with `or` when both are supplied, and an empty
criteria set imposes no search condition. -/
def matchesCriteria (input : GetBlogPostInput) (p : BlogPost) : Bool :=
  match input.id, input.slug with
  | none, none => true
  | some i, none => decide (p.id = i)
  | none, some sl => decide (p.slug = sl)
  | some i, some sl => decide (p.id = i) || decide (p.slug = sl)

/-- `getBlogPost` (`get_blog_post.ts`): the query left-joins categories /
associations / tags, filters by the search condition AND `published = true`,
and the handler returns the post columns of `results[0]` (the category and tag
columns it also selects are dropped from the returned object).  The left joins
fan each matching post out into one row per association (at least one row), in
post order, so `results[0]`'s post columns are those of the first matching
published post; `results.length === 0` yields `null`. -/
def getBlogPost (input : GetBlogPostInput) (s : DBState) : Option BlogPost :=
  (s.blog_posts.filter fun p => matchesCriteria input p && p.published).head?

/-- The scalar where-conditions of `get_blog_posts.ts` lines 13-22: exact
match on `published` and on `category_id` when provided (SQL `=` on a NULL
`category_id` matches nothing, i.e. `p.category_id = some c`). -/
def scalarConds (f : GetBlogPostsInput) (p : BlogPost) : Bool :=
  (match f.published with
    | some b => decide (p.published = b)
    | none => true) &&
  (match f.category_id with
    | some c => decide (p.category_id = some c)
    | none => true)

/-- The full where-condition on a joined row (`get_blog_posts.ts` lines 24-27
add `eq(blogPostTagsTable.tag_id, input.tag_id)` to the conditions). -/
def joinBranchCond (f : GetBlogPostsInput) (pa : BlogPost × BlogPostTag) : Bool :=
  scalarConds f pa.1 &&
  (match f.tag_id with
    | some x => decide (pa.2.tag_id = x)
    | none => true)

/-- The rows produced by the `getBlogPosts` query before ordering and
pagination (`get_blog_posts.ts` lines 31-46): when `tag_id` is set the query
inner-joins `blog_post_tags` on `blog_posts.id = blog_post_tags.blog_post_id`,
applies the where-conditions, and the handler keeps only the `blog_posts` half
of each joined row; otherwise it selects from `blog_posts` alone. -/
def joinedRows (f : GetBlogPostsInput) (s : DBState) : List BlogPost :=
  if f.tag_id.isSome then
    (((s.blog_posts.flatMap fun p =>
        (s.blog_post_tags.filter fun a => decide (a.blog_post_id = p.id)).map
          fun a => (p, a)).filter (joinBranchCond f)).map Prod.fst)
  else
    s.blog_posts.filter fun p => scalarConds f p

/-- `ORDER BY created_at DESC`: row `a` may precede row `b` when
`b.created_at ≤ a.created_at`. -/
def postNewerFirst (a b : BlogPost) : Prop := b.created_at ≤ a.created_at

instance : DecidableRel postNewerFirst := fun a b =>
  inferInstanceAs (Decidable (b.created_at ≤ a.created_at))

instance : IsTotal BlogPost postNewerFirst :=
  ⟨fun a b => (le_total b.created_at a.created_at).imp id id⟩

instance : IsTrans BlogPost postNewerFirst :=
  ⟨fun _ _ _ hab hbc => le_trans hbc hab⟩

/-- `getBlogPosts` (`get_blog_posts.ts`): build the (possibly joined) filtered
rows, order newest-first, and apply `limit` (default 50) and `offset` (default
0) — pagination runs only when an input object was passed at all. -/
def getBlogPosts (input : Option GetBlogPostsInput) (s : DBState) : List BlogPost :=
  match input with
  | none => List.insertionSort postNewerFirst s.blog_posts
  | some f =>
    ((List.insertionSort postNewerFirst (joinedRows f s)).drop (f.offset.getD 0)).take
      (f.limit.getD 50)

/-- `deleteTag` (`delete_tag.ts`): first delete every association row with the
tag's id, then delete the tag row; throw `NotFound` when no tag row was
deleted.  The association delete has already executed when the error is
thrown. -/
def deleteTag (input : DeleteItemInput) (s : DBState) :
    Except HandlerError Bool × DBState :=
  let s1 : DBState := { s with blog_post_tags :=
    (s.blog_post_tags.filter fun a => decide (a.tag_id ≠ input.id)) }
  let deleted := s1.tags.filter fun t => decide (t.id = input.id)
  let s2 : DBState := { s1 with tags := (s1.tags.filter fun t => decide (t.id ≠ input.id)) }
  if deleted.length = 0 then (.error (.NotFound input.id), s2)
  else (.ok true, s2)

/-- `deleteCategory` (`delete_category.ts`): delete by id and report
`success := rowCount > 0`; never throws. -/
def deleteCategory (input : DeleteItemInput) (s : DBState) :
    Except HandlerError Bool × DBState :=
  let rowCount := (s.categories.filter fun c => decide (c.id = input.id)).length
  let s1 : DBState := { s with categories :=
    (s.categories.filter fun c => decide (c.id ≠ input.id)) }
  (.ok (decide (rowCount > 0)), s1)

/-- `deleteBlogPost` (`src/unnamed/part_000`): first delete the post's
association rows, then the post row, and report `success := result.length > 0`;
never throws. -/
def deleteBlogPost (input : DeleteItemInput) (s : DBState) :
    Except HandlerError Bool × DBState :=
  let s1 : DBState := { s with blog_post_tags :=
    (s.blog_post_tags.filter fun a => decide (a.blog_post_id ≠ input.id)) }
  let deleted := s1.blog_posts.filter fun p => decide (p.id = input.id)
  let s2 : DBState := { s1 with blog_posts :=
    (s1.blog_posts.filter fun p => decide (p.id ≠ input.id)) }
  (.ok (decide (deleted.length > 0)), s2)

/-- Store invariants every reachable state satisfies: primary-key uniqueness
per table, serial counter ahead of every assigned post id, and every
association row attached to an existing post (associations are deleted with
their post and are only ever inserted for an existing or freshly inserted
post; the tag side, by contrast, may dangle). -/
def DBState.wf (s : DBState) : Prop :=
  (s.categories.map (·.id)).Nodup ∧
  (s.tags.map (·.id)).Nodup ∧
  (s.blog_posts.map (·.id)).Nodup ∧
  (∀ p ∈ s.blog_posts, p.id < s.nextPostId) ∧
  (∀ a ∈ s.blog_post_tags, ∃ p ∈ s.blog_posts, a.blog_post_id = p.id)

instance (s : DBState) : Decidable s.wf := by
  unfold DBState.wf
  infer_instance

/-- Specification-side reading of the listing filter (spec §4.5): a post
satisfies the filter when every provided field matches it — `published` and
`category_id` by exact value, `tag_id` by existence of an association row. -/
def satisfiesFilter (f : GetBlogPostsInput) (s : DBState) (p : BlogPost) : Bool :=
  (match f.published with
    | some b => decide (p.published = b)
    | none => true) &&
  (match f.category_id with
    | some c => decide (p.category_id = some c)
    | none => true) &&
  (match f.tag_id with
    | some x => decide (∃ a ∈ s.blog_post_tags, a.blog_post_id = p.id ∧ a.tag_id = x)
    | none => true)

/-! ### Concrete fixtures used by witnesses and counterexamples -/

/-- A tag row with id 1. -/
def sampleTag1 : Tag := ⟨1, "JavaScript", "javascript", 0⟩

/-- A category row with id 1. -/
def sampleCategory1 : Category := ⟨1, "Technology", "technology", none, 0, 0⟩

/-- A published post with id 1, slug "a", created at tick 10. -/
def samplePost1 : BlogPost := ⟨1, "A", "body a", "a", none, true, none, none, "alice", 10, 10⟩

/-- A published post with id 2, slug "other", created at tick 5. -/
def samplePost2 : BlogPost := ⟨2, "B", "body b", "other", none, true, none, none, "bob", 5, 5⟩

/-- An unpublished post with id 3, slug "c". -/
def samplePost3 : BlogPost := ⟨3, "C", "body c", "c", none, false, none, none, "carol", 7, 7⟩

/-- Store holding only the tag with id 1. -/
def oneTagState : DBState := ⟨[], [sampleTag1], [], [], 1⟩

/-- Empty store. -/
def emptyState : DBState := ⟨[], [], [], [], 1⟩

/-- Store holding only `samplePost1` (no tags, no associations). -/
def singlePostState : DBState := ⟨[], [], [samplePost1], [], 2⟩

/-- Store holding `samplePost1` together with one prior association row. -/
def priorAssocState : DBState := ⟨[], [], [samplePost1], [⟨1, 7⟩], 2⟩

/-- Store holding `samplePost1` and a duplicated `(1, 5)` association pair. -/
def dupAssocState : DBState := ⟨[], [sampleTag1], [samplePost1], [⟨1, 5⟩, ⟨1, 5⟩], 2⟩

/-- Store with two posts each associated once with tag id 5. -/
def cleanAssocState : DBState := ⟨[], [], [samplePost1, samplePost2], [⟨1, 5⟩, ⟨2, 5⟩], 3⟩

/-- Store with two published posts and one unpublished post. -/
def threePostState : DBState := ⟨[], [], [samplePost1, samplePost2, samplePost3], [], 4⟩

/-- Store exercising tag deletion: one category, one tag, two posts, the tag
associated with both posts plus one unrelated association row. -/
def delState : DBState :=
  ⟨[sampleCategory1], [sampleTag1], [samplePost1, samplePost2], [⟨1, 1⟩, ⟨2, 1⟩, ⟨1, 9⟩], 3⟩

/-- Store with association rows whose tag (id 5) and post (id 3) do not exist. -/
def danglingAssocState : DBState := ⟨[], [], [samplePost1], [⟨1, 5⟩, ⟨3, 6⟩], 2⟩

/-- Create input supplying the duplicated tag-id list `[1, 1]`. -/
def dupTagCreateInput : CreateBlogPostInput :=
  ⟨"T", "C", "t", none, some false, none, none, "A", some [1, 1]⟩

/-- Create input supplying `tag_ids = [1, 999, 888]` (two missing ids, given in
descending order). -/
def unsortedMissingCreateInput : CreateBlogPostInput :=
  ⟨"T", "C", "t", none, some false, none, none, "A", some [1, 999, 888]⟩

/-- Create input supplying the non-null dangling `category_id = 0`. -/
def zeroCategoryCreateInput : CreateBlogPostInput :=
  ⟨"T", "C", "t", none, some false, none, some 0, "A", none⟩

/-- Create input supplying the valid tag-id list `[1]`. -/
def validTagCreateInput : CreateBlogPostInput :=
  ⟨"T", "C", "t", none, some true, none, none, "A", some [1]⟩

/-- Update input supplying only `tag_ids = [5]` (tag 5 does not exist in
`singlePostState`). -/
def danglingTagUpdateInput : UpdateBlogPostInput :=
  ⟨1, none, none, none, none, none, none, none, none, some [5]⟩

/-- Update input supplying only the duplicated list `tag_ids = [3, 3]`. -/
def dupListUpdateInput : UpdateBlogPostInput :=
  ⟨1, none, none, none, none, none, none, none, none, some [3, 3]⟩

/-- Update input exercising the three-state field semantics: `title` set,
`excerpt` set to a value, `category_id` present-null, the rest absent. -/
def fieldUpdateInput : UpdateBlogPostInput :=
  ⟨1, some "New title", none, none, some (some "ex"), none, none, some none, none, none⟩

/-- Listing filter selecting tag id 5 only. -/
def tagFilter5 : GetBlogPostsInput := ⟨none, none, some 5, none, none⟩

/-- Get criteria supplying both an id and a slug of different posts. -/
def bothCriteriaInput : GetBlogPostInput := ⟨some 1, some "other"⟩

/-- Get criteria matching nothing in `threePostState`. -/
def noMatchInput : GetBlogPostInput := ⟨some 99, none⟩

/-- Get criteria whose only match in `threePostState` is unpublished. -/
def unpublishedMatchInput : GetBlogPostInput := ⟨some 3, none⟩

/-! ### Helper lemmas -/

/-- Filtering a list by equality on a key that occurs without duplicates
returns exactly the one matching element. -/
lemma filter_key_singleton {α : Type} (f : α → Int) {l : List α} (hn : (l.map f).Nodup)
    {p : α} (hp : p ∈ l) {i : Int} (hpi : f p = i) :
    l.filter (fun x => decide (f x = i)) = [p] := by
  induction l with
  | nil => cases hp
  | cons q rest ih =>
    rw [show List.map f (q :: rest) = f q :: List.map f rest from rfl, List.nodup_cons] at hn
    rcases List.mem_cons.mp hp with hq | hrest
    · subst hq
      have hres : rest.filter (fun x => decide (f x = i)) = [] := by
        refine List.filter_eq_nil_iff.mpr fun x hx hfx => ?_
        rw [decide_eq_true_eq] at hfx
        have : f p ∈ rest.map f := by
          rw [hpi, ← hfx]
          exact List.mem_map_of_mem f hx
        exact hn.1 this
      simp [List.filter_cons, hpi, hres]
    · have hqi : ¬ (f q = i) := by
        intro hqe
        have : f q ∈ rest.map f := by
          rw [hqe, ← hpi]
          exact List.mem_map_of_mem f hrest
        exact hn.1 this
      simp [List.filter_cons, hqi, ih hn.2 hrest]

/-- When some requested id is missing from the (id-unique) tags table, the
batch fetch returns strictly fewer rows than the request length, so the
handler's length comparison fails. -/
lemma tags_filter_length_ne {s : DBState} (hn : (s.tags.map fun t => t.id).Nodup)
    {l : List Int} {i0 : Int} (h0 : i0 ∈ l) (hmiss : ∀ t ∈ s.tags, t.id ≠ i0) :
    (s.tags.filter fun t => decide (t.id ∈ l)).length ≠ l.length := by
  set F := s.tags.filter fun t => decide (t.id ∈ l) with hF
  have hFsub : F.Sublist s.tags := List.filter_sublist _
  have hFnodup : (F.map fun t => t.id).Nodup := (hFsub.map _).nodup hn
  have hFsubset : ∀ x ∈ F.map (fun t => t.id), x ∈ l.toFinset.erase i0 := by
    intro x hx
    rcases List.mem_map.mp hx with ⟨t, ht, rfl⟩
    have htl : t.id ∈ l := by simpa using (List.mem_filter.mp ht).2
    have htn : t.id ≠ i0 := hmiss t (List.mem_filter.mp ht).1
    exact Finset.mem_erase.mpr ⟨htn, List.mem_toFinset.mpr htl⟩
  have hcard : F.length ≤ (l.toFinset.erase i0).card := by
    calc F.length = (F.map fun t => t.id).length := (List.length_map _ _).symm
      _ = ((F.map fun t => t.id).toFinset).card := (List.toFinset_card_of_nodup hFnodup).symm
      _ ≤ (l.toFinset.erase i0).card :=
          Finset.card_le_card fun x hx => hFsubset x (List.mem_toFinset.mp hx)
  have hlt : (l.toFinset.erase i0).card < l.toFinset.card :=
    Finset.card_erase_lt_of_mem (List.mem_toFinset.mpr h0)
  exact Nat.ne_of_lt (lt_of_le_of_lt hcard (lt_of_lt_of_le hlt (List.toFinset_card_le l)))

/-- The handler's `missingTagIds` computation (membership in the ids of
the fetched rows) names exactly the requested ids absent from the tags
table, in request order. -/
lemma missingTagIds_eq (s : DBState) (l : List Int) :
    (l.filter fun i =>
      !(decide (i ∈ (s.tags.filter fun t => decide (t.id ∈ l)).map fun t => t.id))) =
    l.filter fun i => decide (∀ t ∈ s.tags, t.id ≠ i) := by
  refine List.filter_congr ?_
  intro i hi
  rw [Bool.eq_iff_iff]
  simp only [Bool.not_eq_true', decide_eq_false_iff_not, decide_eq_true_eq]
  constructor
  · intro hnotmem t ht hti
    refine hnotmem (List.mem_map.mpr ⟨t, List.mem_filter.mpr ⟨ht, ?_⟩, hti⟩)
    rw [decide_eq_true_eq, hti]
    exact hi
  · intro hall hmem
    rcases List.mem_map.mp hmem with ⟨t, ht, hti⟩
    exact hall t (List.mem_filter.mp ht).1 hti

/-! ### Claim theorems -/

/-- C1 (code-bug exhibit): a create whose `tag_ids` list repeats an existing
tag id does not complete at all — the spec says duplicate ids are deduplicated
and the create succeeds with one association row per distinct id, but the
handler's `existingTags.length !== input.tag_ids.length` comparison rejects the
request with a `DanglingTagReference` error naming no ids at all (the computed
missing-id list is empty, since every requested id exists). -/
theorem createBlogPost_duplicate_tag_ids_rejected :
    sampleTag1 ∈ oneTagState.tags ∧ sampleTag1.id = 1 ∧
    dupTagCreateInput.tag_ids = some [1, 1] ∧
    createBlogPost 10 dupTagCreateInput oneTagState =
      (.error (.DanglingTagReference []), oneTagState) :=
  ⟨by decide, rfl, rfl, rfl⟩

/-- C3 (code-bug exhibit): a create with the non-null `category_id = 0`, which
references no existing category, is not rejected — `if (input.category_id)` is
a JavaScript truthiness test, `0` is falsy, so the category validation is
skipped and the post row is inserted with the dangling reference. -/
theorem createBlogPost_zero_category_skips_validation :
    emptyState.categories = [] ∧
    zeroCategoryCreateInput.category_id = some 0 ∧
    createBlogPost 20 zeroCategoryCreateInput emptyState =
      (.ok ⟨1, "T", "C", "t", none, false, none, some 0, "A", 20, 20⟩,
       ⟨[], [], [⟨1, "T", "C", "t", none, false, none, some 0, "A", 20, 20⟩], [], 2⟩) :=
  ⟨rfl, rfl, rfl⟩

/-- C2 (counterexample): an update whose `tag_ids` contains the id 5 of a
nonexistent tag does not fail with `DanglingTagReference` and is not
state-preserving — it succeeds and inserts the dangling association row. -/
theorem updateBlogPost_dangling_tag_accepted :
    (∀ t ∈ singlePostState.tags, t.id ≠ 5) ∧
    (updateBlogPost 50 danglingTagUpdateInput singlePostState).1 =
      .ok ⟨1, "A", "body a", "a", none, true, none, none, "alice", 10, 50⟩ ∧
    (updateBlogPost 50 danglingTagUpdateInput singlePostState).2.blog_post_tags = [⟨1, 5⟩] :=
  ⟨by decide, rfl, rfl⟩

/-- C5 (counterexample): an update of an existing post with the duplicated
list `tag_ids = [3, 3]` leaves two identical `(1, 3)` association rows, so the
stored rows are not in 1:1 correspondence with the supplied id set `{3}`. -/
theorem updateBlogPost_duplicate_list_duplicates_rows :
    (updateBlogPost 60 dupListUpdateInput priorAssocState).2.blog_post_tags =
      [⟨1, 3⟩, ⟨1, 3⟩] ∧
    ¬ ((updateBlogPost 60 dupListUpdateInput priorAssocState).2.blog_post_tags).Nodup :=
  ⟨rfl, by decide⟩

/-- C9 (counterexample): creating with `tag_ids = [1, 999, 888]` (only tag 1
exists) fails naming the missing ids as `[999, 888]` — input order, which is
not ascending. -/
theorem createBlogPost_missing_ids_not_sorted :
    createBlogPost 10 unsortedMissingCreateInput oneTagState =
      (.error (.DanglingTagReference [999, 888]), oneTagState) ∧
    ¬ List.Sorted (fun a b => a ≤ b) ([999, 888] : List Int) :=
  ⟨rfl, by decide⟩

/-- C7 (counterexample): with a duplicated `(1, 5)` association pair in the
store, listing by `tag_id = 5` returns the matching post twice — the handler
performs no deduplication after the inner join. -/
theorem getBlogPosts_tag_join_duplicates :
    dupAssocState.blog_post_tags = [⟨1, 5⟩, ⟨1, 5⟩] ∧
    getBlogPosts (some tagFilter5) dupAssocState = [samplePost1, samplePost1] ∧
    (getBlogPosts (some tagFilter5) dupAssocState).count samplePost1 = 2 :=
  ⟨rfl, by decide, by decide⟩

/-- C8: deleting a nonexistent category or blog post reports `success = false`
without raising; deleting a nonexistent tag raises `NotFound`; deleting an
existing tag succeeds, removes every association row carrying the tag's id and
the tag row itself, and leaves the post table untouched (`deleteTag` never
writes to `blog_posts`). -/
theorem delete_noop_and_tag_cascade (s : DBState) (i : Int) :
    ((∀ c ∈ s.categories, c.id ≠ i) → deleteCategory ⟨i⟩ s = (.ok false, s)) ∧
    ((∀ p ∈ s.blog_posts, p.id ≠ i) → (deleteBlogPost ⟨i⟩ s).1 = .ok false) ∧
    ((∀ t ∈ s.tags, t.id ≠ i) → (deleteTag ⟨i⟩ s).1 = .error (.NotFound i)) ∧
    ((∃ t ∈ s.tags, t.id = i) →
      deleteTag ⟨i⟩ s = (.ok true,
        { s with tags := s.tags.filter fun t => decide (t.id ≠ i),
                 blog_post_tags := s.blog_post_tags.filter fun a => decide (a.tag_id ≠ i) })) := by
  refine ⟨?_, ?_, ?_, ?_⟩
  · intro h
    have h1 : s.categories.filter (fun c => decide (c.id = i)) = [] :=
      List.filter_eq_nil_iff.mpr fun c hc => by simpa using h c hc
    have h2 : s.categories.filter (fun c => !decide (c.id = i)) = s.categories :=
      List.filter_eq_self.mpr fun c hc => by simpa using h c hc
    simp [deleteCategory, h1, h2]
  · intro h
    have h1 : s.blog_posts.filter (fun p => decide (p.id = i)) = [] :=
      List.filter_eq_nil_iff.mpr fun p hp => by simpa using h p hp
    simp [deleteBlogPost, h1]
  · intro h
    have h1 : s.tags.filter (fun t => decide (t.id = i)) = [] :=
      List.filter_eq_nil_iff.mpr fun t ht => by simpa using h t ht
    simp [deleteTag, h1]
  · rintro ⟨t, ht, hti⟩
    have hmem : t ∈ s.tags.filter (fun t' => decide (t'.id = i)) :=
      List.mem_filter.mpr ⟨ht, by simpa using hti⟩
    have h1 : (s.tags.filter (fun t' => decide (t'.id = i))).length ≠ 0 :=
      Nat.pos_iff_ne_zero.mp (List.length_pos_of_mem hmem)
    simp [deleteTag, h1]

/-- C8 witness: in `delState`, deleting category/post/tag id 99 takes the
no-op paths, and deleting the existing tag 1 removes its two association rows
while keeping the unrelated row `(1, 9)` and both posts. -/
theorem delete_noop_and_tag_cascade_witness :
    deleteCategory ⟨99⟩ delState = (.ok false, delState) ∧
    (deleteBlogPost ⟨99⟩ delState).1 = .ok false ∧
    (deleteTag ⟨99⟩ delState).1 = .error (.NotFound 99) ∧
    deleteTag ⟨1⟩ delState = (.ok true,
      { delState with tags := delState.tags.filter fun t => decide (t.id ≠ 1),
                      blog_post_tags :=
                        delState.blog_post_tags.filter fun a => decide (a.tag_id ≠ 1) }) ∧
    (delState.blog_post_tags.filter fun a => decide (a.tag_id ≠ 1)) = [⟨1, 9⟩] ∧
    (deleteTag ⟨1⟩ delState).2.blog_posts = [samplePost1, samplePost2] :=
  ⟨(delete_noop_and_tag_cascade delState 99).1 (by decide),
   (delete_noop_and_tag_cascade delState 99).2.1 (by decide),
   (delete_noop_and_tag_cascade delState 99).2.2.1 (by decide),
   (delete_noop_and_tag_cascade delState 1).2.2.2 (by decide),
   by decide, rfl⟩

/-- C10: the no-op/error paths of `deleteTag` and `deleteBlogPost` still
mutate the association table — for a nonexistent tag id, every association row
carrying that `tag_id` is deleted before `NotFound` is raised; for a
nonexistent post id, every association row carrying that `blog_post_id` is
deleted and `success = false` is reported. -/
theorem delete_noop_paths_purge_associations (s : DBState) (i : Int) :
    ((∀ t ∈ s.tags, t.id ≠ i) →
      deleteTag ⟨i⟩ s = (.error (.NotFound i),
        { s with blog_post_tags :=
            s.blog_post_tags.filter fun a => decide (a.tag_id ≠ i) })) ∧
    ((∀ p ∈ s.blog_posts, p.id ≠ i) →
      deleteBlogPost ⟨i⟩ s = (.ok false,
        { s with blog_post_tags :=
            s.blog_post_tags.filter fun a => decide (a.blog_post_id ≠ i) })) := by
  constructor
  · intro h
    have h1 : s.tags.filter (fun t => decide (t.id = i)) = [] :=
      List.filter_eq_nil_iff.mpr fun t ht => by simpa using h t ht
    have h2 : s.tags.filter (fun t => !decide (t.id = i)) = s.tags :=
      List.filter_eq_self.mpr fun t ht => by simpa using h t ht
    simp [deleteTag, h1, h2]
  · intro h
    have h1 : s.blog_posts.filter (fun p => decide (p.id = i)) = [] :=
      List.filter_eq_nil_iff.mpr fun p hp => by simpa using h p hp
    have h2 : s.blog_posts.filter (fun p => !decide (p.id = i)) = s.blog_posts :=
      List.filter_eq_self.mpr fun p hp => by simpa using h p hp
    simp [deleteBlogPost, h1, h2]

/-- C10 witness: in `danglingAssocState` (association rows `(1,5)` and
`(3,6)`, no tag 5, no post 3), deleting tag 5 raises `NotFound` yet removes
the `(1,5)` row, and deleting post 3 reports `false` yet removes the `(3,6)`
row. -/
theorem delete_noop_paths_purge_associations_witness :
    deleteTag ⟨5⟩ danglingAssocState = (.error (.NotFound 5),
      { danglingAssocState with blog_post_tags :=
          danglingAssocState.blog_post_tags.filter fun a => decide (a.tag_id ≠ 5) }) ∧
    deleteBlogPost ⟨3⟩ danglingAssocState = (.ok false,
      { danglingAssocState with blog_post_tags :=
          danglingAssocState.blog_post_tags.filter fun a => decide (a.blog_post_id ≠ 3) }) ∧
    (danglingAssocState.blog_post_tags.filter fun a => decide (a.tag_id ≠ 5)) = [⟨3, 6⟩] ∧
    (danglingAssocState.blog_post_tags.filter fun a => decide (a.blog_post_id ≠ 3)) = [⟨1, 5⟩] :=
  ⟨(delete_noop_paths_purge_associations danglingAssocState 5).1 (by decide),
   (delete_noop_paths_purge_associations danglingAssocState 3).2 (by decide),
   by decide, by decide⟩

/-- C4: updating a nonexistent id fails with `NotFound` leaving the store
unchanged; updating an existing post overwrites exactly the supplied fields
(absent = keep the previous value, present = take the supplied value,
including a present `null` for the nullable fields), keeps `id` and
`created_at`, always refreshes `updated_at`, and stores the updated row. -/
theorem updateBlogPost_partial_update_semantics (now : Int) (input : UpdateBlogPostInput)
    (s : DBState) (hwf : s.wf) :
    ((∀ p ∈ s.blog_posts, p.id ≠ input.id) →
      updateBlogPost now input s = (.error (.NotFound input.id), s)) ∧
    (∀ p ∈ s.blog_posts, p.id = input.id →
      ∃ u s', updateBlogPost now input s = (.ok u, s') ∧
        u.id = p.id ∧
        u.title = input.title.getD p.title ∧
        u.content = input.content.getD p.content ∧
        u.slug = input.slug.getD p.slug ∧
        u.excerpt = input.excerpt.getD p.excerpt ∧
        u.published = input.published.getD p.published ∧
        u.publication_date = input.publication_date.getD p.publication_date ∧
        u.category_id = input.category_id.getD p.category_id ∧
        u.author = input.author.getD p.author ∧
        u.created_at = p.created_at ∧
        u.updated_at = now ∧
        u ∈ s'.blog_posts) := by
  constructor
  · intro h
    have h1 : s.blog_posts.filter (fun p => decide (p.id = input.id)) = [] :=
      List.filter_eq_nil_iff.mpr fun p hp => by simpa using h p hp
    unfold updateBlogPost
    rw [h1]
  · intro p hp hpid
    have h1 : s.blog_posts.filter (fun q => decide (q.id = input.id)) = [p] :=
      filter_key_singleton (fun q => q.id) hwf.2.2.1 hp hpid
    have hres : ∃ s', updateBlogPost now input s = (.ok (applyUpdate now input p), s') ∧
        s'.blog_posts =
          (s.blog_posts.map fun r => if r.id = input.id then applyUpdate now input r else r) := by
      unfold updateBlogPost
      rw [h1]
      rcases input.tag_ids with _ | l
      · exact ⟨_, rfl, rfl⟩
      · by_cases hl : l.length > 0
        · simp only [if_pos hl]
          exact ⟨_, rfl, rfl⟩
        · simp only [if_neg hl]
          exact ⟨_, rfl, rfl⟩
    rcases hres with ⟨s', hs', hposts⟩
    refine ⟨applyUpdate now input p, s', hs', rfl, rfl, rfl, rfl, rfl, rfl, rfl, rfl, rfl,
      rfl, rfl, ?_⟩
    rw [hposts]
    exact List.mem_map.mpr ⟨p, hp, by rw [if_pos hpid]⟩

/-- C4 witness: updating `samplePost1` with `fieldUpdateInput` (title set,
excerpt set to a value, category present-null, everything else absent)
succeeds with exactly those fields changed and `updated_at = 70`; the same
update against the empty store fails with `NotFound` and changes nothing. -/
theorem updateBlogPost_partial_update_semantics_witness :
    updateBlogPost 70 fieldUpdateInput emptyState = (.error (.NotFound 1), emptyState) ∧
    ∃ u s', updateBlogPost 70 fieldUpdateInput singlePostState = (.ok u, s') ∧
      u.title = "New title" ∧ u.excerpt = some "ex" ∧ u.category_id = none ∧
      u.published = true ∧ u.author = "alice" ∧ u.created_at = 10 ∧
      u.updated_at = 70 ∧ u ∈ s'.blog_posts := by
  refine ⟨(updateBlogPost_partial_update_semantics 70 fieldUpdateInput emptyState
    (by decide)).1 (by decide), ?_⟩
  obtain ⟨u, s', h, _, htitle, _, _, hexcerpt, hpub, _, hcat, hauthor, hca, hua, hmem⟩ :=
    (updateBlogPost_partial_update_semantics 70 fieldUpdateInput singlePostState
      (by decide)).2 samplePost1 (by decide) rfl
  exact ⟨u, s', h, htitle, hexcerpt, hcat, hpub, hauthor, hca, hua, hmem⟩

/-- C2 (amended): `updateBlogPost` performs no tag-reference validation — an
update of an existing post whose `tag_ids` list contains ids of nonexistent
tags does not fail: it succeeds and full-replaces the post's association rows
with one row per supplied id, dangling ids included. -/
theorem updateBlogPost_inserts_dangling_tags (now : Int) (input : UpdateBlogPostInput)
    (s : DBState) (l : List Int)
    (htag : input.tag_ids = some l)
    (hdangling : ∃ i ∈ l, ∀ t ∈ s.tags, t.id ≠ i)
    (hpost : ∃ p ∈ s.blog_posts, p.id = input.id) :
    ∃ u s', updateBlogPost now input s = (.ok u, s') ∧
      s'.blog_post_tags =
        (s.blog_post_tags.filter fun a => decide (a.blog_post_id ≠ input.id)) ++
          (l.map fun tid => ⟨input.id, tid⟩) := by
  rcases hpost with ⟨p, hp, hpid⟩
  have hlen : l.length > 0 := by
    rcases hdangling with ⟨i, hi, _⟩
    exact List.length_pos_of_mem hi
  have hmemf : p ∈ s.blog_posts.filter (fun q => decide (q.id = input.id)) :=
    List.mem_filter.mpr ⟨hp, by simpa using hpid⟩
  rcases hfil : s.blog_posts.filter (fun q => decide (q.id = input.id)) with _ | ⟨q, rest⟩
  · rw [hfil] at hmemf
    cases hmemf
  · unfold updateBlogPost
    rw [hfil, htag]
    simp only [if_pos hlen]
    exact ⟨_, _, rfl, rfl⟩

/-- C2 witness: updating `samplePost1` with `tag_ids = [5]` (no tag 5 exists)
succeeds and stores the dangling `(1, 5)` association row. -/
theorem updateBlogPost_inserts_dangling_tags_witness :
    ∃ u s', updateBlogPost 50 danglingTagUpdateInput singlePostState = (.ok u, s') ∧
      s'.blog_post_tags =
        (singlePostState.blog_post_tags.filter fun a =>
          decide (a.blog_post_id ≠ danglingTagUpdateInput.id)) ++
          ([5].map fun tid => ⟨danglingTagUpdateInput.id, tid⟩) :=
  updateBlogPost_inserts_dangling_tags 50 danglingTagUpdateInput singlePostState [5]
    rfl ⟨5, by decide, by decide⟩ ⟨samplePost1, by decide, rfl⟩

/-- C5 (amended): for an update of an existing post, a present `tag_ids`
full-replaces the post's association rows with one row per element of the
supplied list in list order — the stored tag-id sequence equals the supplied
list (so the id set matches the supplied set, but duplicate list entries yield
duplicate rows, and an empty list clears all rows) — while rows of other posts
are untouched; an absent `tag_ids` leaves the association table unchanged. -/
theorem updateBlogPost_tag_sync (now : Int) (input : UpdateBlogPostInput) (s : DBState)
    (hpost : ∃ p ∈ s.blog_posts, p.id = input.id) :
    (∀ l, input.tag_ids = some l →
      ∃ u s', updateBlogPost now input s = (.ok u, s') ∧
        ((s'.blog_post_tags.filter fun a => decide (a.blog_post_id = input.id)).map
          fun a => a.tag_id) = l ∧
        (s'.blog_post_tags.filter fun a => decide (a.blog_post_id ≠ input.id)) =
          (s.blog_post_tags.filter fun a => decide (a.blog_post_id ≠ input.id))) ∧
    (input.tag_ids = none →
      ∃ u s', updateBlogPost now input s = (.ok u, s') ∧
        s'.blog_post_tags = s.blog_post_tags) := by
  rcases hpost with ⟨p, hp, hpid⟩
  have hmemf : p ∈ s.blog_posts.filter (fun q => decide (q.id = input.id)) :=
    List.mem_filter.mpr ⟨hp, by simpa using hpid⟩
  rcases hfil : s.blog_posts.filter (fun q => decide (q.id = input.id)) with _ | ⟨q, rest⟩
  · rw [hfil] at hmemf
    cases hmemf
  · have hFeq : ∀ X : List BlogPostTag,
        ((X.filter fun a => decide (a.blog_post_id ≠ input.id)).filter
          fun a => decide (a.blog_post_id = input.id)) = [] := by
      intro X
      refine List.filter_eq_nil_iff.mpr ?_
      intro a ha hdec
      rw [decide_eq_true_eq] at hdec
      have := (List.mem_filter.mp ha).2
      rw [hdec] at this
      simp at this
    have hFidem : ∀ X : List BlogPostTag,
        ((X.filter fun a => decide (a.blog_post_id ≠ input.id)).filter
          fun a => decide (a.blog_post_id ≠ input.id)) =
        (X.filter fun a => decide (a.blog_post_id ≠ input.id)) := by
      intro X
      exact List.filter_eq_self.mpr fun a ha => (List.mem_filter.mp ha).2
    constructor
    · intro l htag
      by_cases hl : l.length > 0
      · obtain ⟨u, hu⟩ : ∃ u, updateBlogPost now input s = (.ok u,
            { s with
              blog_posts := (s.blog_posts.map fun r =>
                if r.id = input.id then applyUpdate now input r else r),
              blog_post_tags :=
                (s.blog_post_tags.filter fun a => decide (a.blog_post_id ≠ input.id)) ++
                  (l.map fun tid => ⟨input.id, tid⟩) }) := by
          unfold updateBlogPost
          rw [hfil, htag]
          simp only [if_pos hl]
          exact ⟨_, rfl⟩
        refine ⟨u, _, hu, ?_, ?_⟩
        · show ((((s.blog_post_tags.filter fun a => decide (a.blog_post_id ≠ input.id)) ++
            (l.map fun tid => (⟨input.id, tid⟩ : BlogPostTag))).filter
              fun a => decide (a.blog_post_id = input.id)).map fun a => a.tag_id) = l
          have hM : ((l.map fun tid => (⟨input.id, tid⟩ : BlogPostTag)).filter
              fun a => decide (a.blog_post_id = input.id)) =
              (l.map fun tid => (⟨input.id, tid⟩ : BlogPostTag)) := by
            refine List.filter_eq_self.mpr ?_
            intro a ha
            rcases List.mem_map.mp ha with ⟨tid, _, rfl⟩
            simp
          rw [List.filter_append, hFeq, List.nil_append, hM, List.map_map]
          exact List.map_id l
        · show (((s.blog_post_tags.filter fun a => decide (a.blog_post_id ≠ input.id)) ++
            (l.map fun tid => (⟨input.id, tid⟩ : BlogPostTag))).filter
              fun a => decide (a.blog_post_id ≠ input.id)) =
            (s.blog_post_tags.filter fun a => decide (a.blog_post_id ≠ input.id))
          have hM : ((l.map fun tid => (⟨input.id, tid⟩ : BlogPostTag)).filter
              fun a => decide (a.blog_post_id ≠ input.id)) = [] := by
            refine List.filter_eq_nil_iff.mpr ?_
            intro a ha hdec
            rcases List.mem_map.mp ha with ⟨tid, _, rfl⟩
            simp at hdec
          rw [List.filter_append, hFidem, hM, List.append_nil]
      · have hlnil : l = [] := List.length_eq_zero.mp (Nat.eq_zero_of_not_pos hl)
        subst hlnil
        obtain ⟨u, hu⟩ : ∃ u, updateBlogPost now input s = (.ok u,
            { s with
              blog_posts := (s.blog_posts.map fun r =>
                if r.id = input.id then applyUpdate now input r else r),
              blog_post_tags :=
                s.blog_post_tags.filter fun a => decide (a.blog_post_id ≠ input.id) }) := by
          unfold updateBlogPost
          rw [hfil, htag]
          simp only [if_neg hl]
          exact ⟨_, rfl⟩
        refine ⟨u, _, hu, ?_, ?_⟩
        · show (((s.blog_post_tags.filter fun a => decide (a.blog_post_id ≠ input.id)).filter
              fun a => decide (a.blog_post_id = input.id)).map fun a => a.tag_id) = []
          rw [hFeq]
          rfl
        · show (((s.blog_post_tags.filter fun a => decide (a.blog_post_id ≠ input.id)).filter
              fun a => decide (a.blog_post_id ≠ input.id))) =
            (s.blog_post_tags.filter fun a => decide (a.blog_post_id ≠ input.id))
          rw [hFidem]
    · intro htag
      obtain ⟨u, hu⟩ : ∃ u, updateBlogPost now input s = (.ok u,
          { s with
            blog_posts := (s.blog_posts.map fun r =>
              if r.id = input.id then applyUpdate now input r else r) }) := by
        unfold updateBlogPost
        rw [hfil, htag]
        exact ⟨_, rfl⟩
      exact ⟨u, _, hu, rfl⟩

/-- C5 witness: updating `samplePost1` (prior association `(1, 7)`) with
`tag_ids = [3, 3]` stores tag-id sequence `[3, 3]` for the post; updating it
with `fieldUpdateInput` (no `tag_ids`) leaves the association table unchanged. -/
theorem updateBlogPost_tag_sync_witness :
    (∃ u s', updateBlogPost 60 dupListUpdateInput priorAssocState = (.ok u, s') ∧
      ((s'.blog_post_tags.filter fun a =>
        decide (a.blog_post_id = dupListUpdateInput.id)).map fun a => a.tag_id) = [3, 3] ∧
      (s'.blog_post_tags.filter fun a => decide (a.blog_post_id ≠ dupListUpdateInput.id)) =
        (priorAssocState.blog_post_tags.filter fun a =>
          decide (a.blog_post_id ≠ dupListUpdateInput.id))) ∧
    (∃ u s', updateBlogPost 70 fieldUpdateInput priorAssocState = (.ok u, s') ∧
      s'.blog_post_tags = priorAssocState.blog_post_tags) :=
  ⟨(updateBlogPost_tag_sync 60 dupListUpdateInput priorAssocState
      ⟨samplePost1, by decide, rfl⟩).1 [3, 3] rfl,
   (updateBlogPost_tag_sync 70 fieldUpdateInput priorAssocState
      ⟨samplePost1, by decide, rfl⟩).2 rfl⟩

/-- C6: `getBlogPost` returns only posts whose `published` flag is true;
returns `none` (not an error — the function is total) when no published post
matches the criteria; and when both an id and a slug are supplied it returns a
post whenever at least one published post matches either criterion. -/
theorem getBlogPost_published_only (input : GetBlogPostInput) (s : DBState) :
    (∀ p, getBlogPost input s = some p → p.published = true) ∧
    ((∀ p ∈ s.blog_posts, matchesCriteria input p = true → p.published = false) →
      getBlogPost input s = none) ∧
    (∀ i sl, input.id = some i → input.slug = some sl →
      (∃ p ∈ s.blog_posts, (p.id = i ∨ p.slug = sl) ∧ p.published = true) →
      (getBlogPost input s).isSome = true) := by
  refine ⟨?_, ?_, ?_⟩
  · intro p hp
    unfold getBlogPost at hp
    rcases hfil : s.blog_posts.filter (fun q => matchesCriteria input q && q.published)
      with _ | ⟨q, rest⟩
    · rw [hfil] at hp
      cases hp
    · rw [hfil] at hp
      have hq : q = p := by simpa using hp
      subst hq
      have : q ∈ s.blog_posts.filter (fun r => matchesCriteria input r && r.published) := by
        rw [hfil]
        exact List.mem_cons_self q rest
      have := (List.mem_filter.mp this).2
      exact (Bool.and_eq_true _ _ |>.mp this).2
  · intro hall
    have h1 : (s.blog_posts.filter fun p => matchesCriteria input p && p.published) = [] := by
      refine List.filter_eq_nil_iff.mpr ?_
      intro p hp hcond
      rw [Bool.and_eq_true] at hcond
      have := hall p hp hcond.1
      rw [this] at hcond
      exact Bool.false_ne_true hcond.2
    unfold getBlogPost
    rw [h1]
    rfl
  · rintro i sl hid hsl ⟨p, hp, hmatch, hpub⟩
    have hm : matchesCriteria input p = true := by
      unfold matchesCriteria
      rw [hid, hsl]
      rcases hmatch with h | h <;> simp [h]
    have hmem : p ∈ s.blog_posts.filter (fun q => matchesCriteria input q && q.published) :=
      List.mem_filter.mpr ⟨hp, by rw [hm, hpub]; rfl⟩
    unfold getBlogPost
    rcases hfil : s.blog_posts.filter (fun q => matchesCriteria input q && q.published)
      with _ | ⟨q, rest⟩
    · rw [hfil] at hmem
      cases hmem
    · rfl

/-- C6 witness: in `threePostState`, the both-criteria lookup `(id 1, slug
"other")` returns a published post; lookups matching nothing or matching only
the unpublished post return `none`. -/
theorem getBlogPost_published_only_witness :
    samplePost1.published = true ∧
    getBlogPost noMatchInput threePostState = none ∧
    getBlogPost unpublishedMatchInput threePostState = none ∧
    (getBlogPost bothCriteriaInput threePostState).isSome = true :=
  ⟨(getBlogPost_published_only bothCriteriaInput threePostState).1 samplePost1 rfl,
   (getBlogPost_published_only noMatchInput threePostState).2.1 (by decide),
   (getBlogPost_published_only unpublishedMatchInput threePostState).2.1 (by decide),
   (getBlogPost_published_only bothCriteriaInput threePostState).2.2 1 "other" rfl rfl
     ⟨samplePost1, by decide, Or.inl rfl, rfl⟩⟩

/-- C9 (amended): when a create's `tag_ids` contains ids of nonexistent tags
(and the category check passes), the operation fails with
`DanglingTagReference` naming exactly the requested ids absent from the tags
table, listed in the order they appear in the input list — not sorted — and
the store is left unchanged. -/
theorem createBlogPost_names_missing_in_input_order (now : Int)
    (input : CreateBlogPostInput) (s : DBState) (l : List Int)
    (hwf : s.wf)
    (htag : input.tag_ids = some l)
    (hcat : jsTruthy input.category_id = false ∨
      ∃ c ∈ s.categories, c.id = input.category_id.getD 0)
    (hmissing : ∃ i ∈ l, ∀ t ∈ s.tags, t.id ≠ i) :
    createBlogPost now input s =
      (.error (.DanglingTagReference
        (l.filter fun i => decide (∀ t ∈ s.tags, t.id ≠ i))), s) := by
  rcases hmissing with ⟨i0, hi0, hmiss⟩
  have hlen0 : l.length > 0 := List.length_pos_of_mem hi0
  have hlenne : (s.tags.filter fun t => decide (t.id ∈ l)).length ≠ l.length :=
    tags_filter_length_ne hwf.2.1 hi0 hmiss
  have hcond : (jsTruthy input.category_id &&
      (((s.categories.filter fun c =>
        decide (c.id = input.category_id.getD 0)).take 1).length == 0)) = false := by
    rcases hcat with h | ⟨c, hc, hcid⟩
    · rw [h]
      rfl
    · have hm : c ∈ s.categories.filter fun c' => decide (c'.id = input.category_id.getD 0) :=
        List.mem_filter.mpr ⟨hc, by simpa using hcid⟩
      rcases hfc : s.categories.filter (fun c' => decide (c'.id = input.category_id.getD 0))
        with _ | ⟨q, rest⟩
      · rw [hfc] at hm
        cases hm
      · rw [hfc]
        simp
  unfold createBlogPost
  rw [hcond, htag]
  simp only [Bool.false_eq_true, if_false, if_pos hlen0, if_pos hlenne]
  rw [missingTagIds_eq]

/-- `satisfiesFilter` splits into the scalar where-conditions and the
tag-association condition. -/
lemma satisfiesFilter_eq (f : GetBlogPostsInput) (s : DBState) (p : BlogPost) :
    satisfiesFilter f s p =
      (scalarConds f p && (match f.tag_id with
        | some x => decide (∃ a ∈ s.blog_post_tags, a.blog_post_id = p.id ∧ a.tag_id = x)
        | none => true)) := by
  unfold satisfiesFilter scalarConds
  rfl

/-- With the tag filter set, the joined-filtered-projected query rows are, per
post, the post repeated once for every association row matching the post's id
and the requested tag id (zero repetitions when the scalar conditions fail). -/
lemma joinedRows_tag_eq (f : GetBlogPostsInput) (x : Int) (s : DBState)
    (hx : f.tag_id = some x) :
    joinedRows f s = s.blog_posts.flatMap fun p =>
      List.replicate
        (if scalarConds f p then
          (s.blog_post_tags.filter fun a =>
            decide (a.blog_post_id = p.id) && decide (a.tag_id = x)).length
        else 0) p := by
  unfold joinedRows
  rw [hx]
  simp only [Option.isSome_some, if_true]
  induction s.blog_posts with
  | nil => rfl
  | cons p P ih =>
    rw [List.flatMap_cons, List.filter_append, List.map_append, ih, List.flatMap_cons]
    congr 1
    rw [List.filter_map, List.map_map]
    by_cases hc : scalarConds f p = true
    · have hcomp : ((joinBranchCond f) ∘ (fun a => ((p, a) : BlogPost × BlogPostTag))) =
          fun a => decide (a.tag_id = x) := by
        funext a
        simp [joinBranchCond, hc, hx]
      rw [hcomp, List.filter_filter, if_pos hc]
      rw [show (Prod.fst ∘ fun a => ((p, a) : BlogPost × BlogPostTag)) =
        Function.const BlogPostTag p from rfl]
      rw [List.map_const]
      congr 1
      exact congrArg List.length (List.filter_congr fun a _ => Bool.and_comm _ _)
    · have hcomp : ((joinBranchCond f) ∘ (fun a => ((p, a) : BlogPost × BlogPostTag))) =
          fun _ => false := by
        funext a
        simp [joinBranchCond, hx]
        intro hsc
        exact absurd hsc hc
      rw [hcomp, if_neg hc]
      simp

/-- Counting in a flatMap-of-replicates. -/
lemma nodup_flatMap_replicate {α : Type} {P : List α} {k : α → Nat}
    (hP : P.Nodup) (hk : ∀ p ∈ P, k p ≤ 1) :
    (P.flatMap fun p => List.replicate (k p) p).Nodup := by
  induction P with
  | nil => exact List.nodup_nil
  | cons p P ih =>
    rw [List.flatMap_cons]
    have hPn := List.nodup_cons.mp hP
    refine List.Nodup.append (List.nodup_replicate.mpr (hk p (List.mem_cons_self p P)))
      (ih hPn.2 fun r hr => hk r (List.mem_cons_of_mem p hr)) ?_
    intro a ha hb
    rcases List.mem_replicate.mp ha with ⟨_, rfl⟩
    rcases List.mem_flatMap.mp hb with ⟨r, hrP, har⟩
    rcases List.mem_replicate.mp har with ⟨_, rfl⟩
    exact hPn.1 hrP

/-- Membership in a flatMap-of-replicates. -/
lemma mem_flatMap_replicate {α : Type} {P : List α} {k : α → Nat} {q : α} :
    q ∈ (P.flatMap fun p => List.replicate (k p) p) ↔ q ∈ P ∧ k q ≠ 0 := by
  constructor
  · intro h
    rcases List.mem_flatMap.mp h with ⟨r, hr, hq⟩
    rcases List.mem_replicate.mp hq with ⟨hkr, rfl⟩
    exact ⟨hr, hkr⟩
  · rintro ⟨hp, hk⟩
    exact List.mem_flatMap.mpr ⟨q, hp, List.mem_replicate.mpr ⟨hk, rfl⟩⟩

/-- A duplicate-free list all of whose elements coincide has at most one
element. -/
lemma length_le_one_of_nodup_const {α : Type} {L : List α} {v : α}
    (hnd : L.Nodup) (hall : ∀ a ∈ L, a = v) : L.length ≤ 1 := by
  cases L with
  | nil => simp
  | cons a L' =>
    cases L' with
    | nil => simp
    | cons b L'' =>
      exfalso
      have ha := hall a (by simp)
      have hb := hall b (by simp)
      rw [List.nodup_cons] at hnd
      exact hnd.1 (by rw [ha, ← hb]; exact List.mem_cons_self b L'')

/-- C7 (amended): every listed post satisfies all provided filter fields
combined with logical AND; the result is ordered by `created_at` descending;
when `tag_id` is set the result carries one row per matching association row,
so it is duplicate-free whenever the association table holds no duplicate
`(blog_post_id, tag_id)` row (but not in general — see the counterexample);
and every post satisfying the filter appears in the result when pagination
does not cut it off (offset 0 and the query rows within the limit, default
50). -/
theorem getBlogPosts_filter_spec (f : GetBlogPostsInput) (s : DBState) :
    (∀ p ∈ getBlogPosts (some f) s, satisfiesFilter f s p = true) ∧
    List.Sorted postNewerFirst (getBlogPosts (some f) s) ∧
    (s.wf → s.blog_post_tags.Nodup → f.tag_id.isSome = true →
      (getBlogPosts (some f) s).Nodup) ∧
    (f.offset.getD 0 = 0 → (joinedRows f s).length ≤ f.limit.getD 50 →
      ∀ p ∈ s.blog_posts, satisfiesFilter f s p = true →
        p ∈ getBlogPosts (some f) s) := by
  have hres : getBlogPosts (some f) s =
      ((List.insertionSort postNewerFirst (joinedRows f s)).drop (f.offset.getD 0)).take
        (f.limit.getD 50) := rfl
  have hsub : (getBlogPosts (some f) s).Sublist
      (List.insertionSort postNewerFirst (joinedRows f s)) := by
    rw [hres]
    exact (List.take_sublist _ _).trans (List.drop_sublist _ _)
  have hperm := List.perm_insertionSort postNewerFirst (joinedRows f s)
  refine ⟨?_, ?_, ?_, ?_⟩
  · intro p hp
    have hrows : p ∈ joinedRows f s := hperm.mem_iff.mp (hsub.subset hp)
    rcases hx : f.tag_id with _ | x
    · have hrows' : p ∈ s.blog_posts.filter fun q => scalarConds f q := by
        unfold joinedRows at hrows
        rw [hx] at hrows
        simpa using hrows
      rw [satisfiesFilter_eq, hx]
      have := (List.mem_filter.mp hrows').2
      simp [this]
    · rw [joinedRows_tag_eq f x s hx] at hrows
      obtain ⟨hpP, hk⟩ := mem_flatMap_replicate.mp hrows
      rw [satisfiesFilter_eq, hx]
      by_cases hc : scalarConds f p = true
      · rw [if_pos hc] at hk
        rcases hne : s.blog_post_tags.filter
            (fun a => decide (a.blog_post_id = p.id) && decide (a.tag_id = x))
          with _ | ⟨a, rest⟩
        · rw [hne] at hk
          exact absurd rfl hk
        · have ha : a ∈ s.blog_post_tags.filter
              (fun a' => decide (a'.blog_post_id = p.id) && decide (a'.tag_id = x)) := by
            rw [hne]
            exact List.mem_cons_self a rest
          have hmem := List.mem_filter.mp ha
          have hcond := hmem.2
          rw [Bool.and_eq_true, decide_eq_true_eq, decide_eq_true_eq] at hcond
          rw [hc]
          simp only [Bool.true_and, decide_eq_true_eq]
          exact ⟨a, hmem.1, hcond.1, hcond.2⟩
      · rw [if_neg hc] at hk
        exact absurd rfl hk
  · rw [hres]
    exact List.Pairwise.sublist ((List.take_sublist _ _).trans (List.drop_sublist _ _))
      (List.sorted_insertionSort postNewerFirst (joinedRows f s))
  · intro hwf hnd hsome
    rcases hx : f.tag_id with _ | x
    · rw [hx] at hsome
      simp at hsome
    · have hrows : (joinedRows f s).Nodup := by
        rw [joinedRows_tag_eq f x s hx]
        refine nodup_flatMap_replicate (List.Nodup.of_map _ hwf.2.2.1) ?_
        intro p hp
        by_cases hc : scalarConds f p = true
        · rw [if_pos hc]
          refine length_le_one_of_nodup_const (v := (⟨p.id, x⟩ : BlogPostTag))
            (List.Nodup.filter _ hnd) ?_
          intro a ha
          have := (List.mem_filter.mp ha).2
          rw [Bool.and_eq_true, decide_eq_true_eq, decide_eq_true_eq] at this
          rcases a with ⟨b, t⟩
          simp only [BlogPostTag.mk.injEq]
          exact this
        · rw [if_neg hc]
          exact Nat.zero_le 1
      exact List.Nodup.sublist hsub (hperm.nodup_iff.mpr hrows)
  · intro hoff hlim p hp hsat
    rw [hres, hoff, List.drop_zero]
    have hlen : (List.insertionSort postNewerFirst (joinedRows f s)).length ≤
        f.limit.getD 50 := by
      rw [hperm.length_eq]
      exact hlim
    rw [List.take_of_length_le hlen]
    refine hperm.mem_iff.mpr ?_
    rcases hx : f.tag_id with _ | x
    · unfold joinedRows
      rw [hx]
      simp only [Option.isSome_none, Bool.false_eq_true, if_false]
      refine List.mem_filter.mpr ⟨hp, ?_⟩
      rw [satisfiesFilter_eq, hx] at hsat
      simpa using hsat
    · rw [joinedRows_tag_eq f x s hx]
      rw [satisfiesFilter_eq, hx, Bool.and_eq_true, decide_eq_true_eq] at hsat
      rcases hsat with ⟨hsc, a, ha, hab, hat⟩
      refine mem_flatMap_replicate.mpr ⟨hp, ?_⟩
      rw [if_pos hsc]
      have hmem : a ∈ s.blog_post_tags.filter fun a' =>
          decide (a'.blog_post_id = p.id) && decide (a'.tag_id = x) :=
        List.mem_filter.mpr ⟨ha, by simp [hab, hat]⟩
      exact Nat.pos_iff_ne_zero.mp (List.length_pos_of_mem hmem)

/-- C7 witness: in `cleanAssocState` (two posts, each with one association row
for tag 5), listing by tag 5 yields a duplicate-free, newest-first result
containing both posts, each satisfying the filter. -/
theorem getBlogPosts_filter_spec_witness :
    satisfiesFilter tagFilter5 cleanAssocState samplePost1 = true ∧
    List.Sorted postNewerFirst (getBlogPosts (some tagFilter5) cleanAssocState) ∧
    (getBlogPosts (some tagFilter5) cleanAssocState).Nodup ∧
    samplePost2 ∈ getBlogPosts (some tagFilter5) cleanAssocState :=
  ⟨(getBlogPosts_filter_spec tagFilter5 cleanAssocState).1 samplePost1 (by decide),
   (getBlogPosts_filter_spec tagFilter5 cleanAssocState).2.1,
   (getBlogPosts_filter_spec tagFilter5 cleanAssocState).2.2.1 (by decide) (by decide) rfl,
   (getBlogPosts_filter_spec tagFilter5 cleanAssocState).2.2.2 rfl (by decide) samplePost2
     (by decide) (by decide)⟩

/-- C9 witness: creating with `tag_ids = [1, 999, 888]` against `oneTagState`
(only tag 1 exists) fails naming `[999, 888]` — the missing ids in input
order. -/
theorem createBlogPost_names_missing_in_input_order_witness :
    createBlogPost 10 unsortedMissingCreateInput oneTagState =
      (.error (.DanglingTagReference
        ([1, 999, 888].filter fun i => decide (∀ t ∈ oneTagState.tags, t.id ≠ i))),
       oneTagState) ∧
    ([1, 999, 888].filter fun i => decide (∀ t ∈ oneTagState.tags, t.id ≠ i)) = [999, 888] :=
  ⟨createBlogPost_names_missing_in_input_order 10 unsortedMissingCreateInput oneTagState
      [1, 999, 888] (by decide) rfl (Or.inl rfl) ⟨999, by decide, by decide⟩,
   by decide⟩

end Blog
